import Mathlib

/-!
Verification of the double-entry journal posting and period/FX-rate locking
subsystem of the finops audit backend.  The TypeScript handlers are embedded
shallowly: monetary values become exact rationals (the spec prescribes
fixed-point decimal semantics for all monetary columns), calendar dates and
timestamps become natural numbers compared only by equality and order, the
relational tables become lists of records, and each fallible handler becomes a
function into `Except String`.  Every handler in the source performs all of its
reads and validation checks before its single write, so a thrown error leaves
the store untouched; the step functions below encode exactly that.
-/

namespace FinOps

/-- Balance tolerance used by journal validation (0.01). -/
def tolerance : ℚ := 1 / 100

/-- Two-digit zero padding, as produced by padStart(2, the zero digit) and by
the fraction part of toFixed(2). -/
def pad2 (n : Nat) : String :=
  if n < 10 then "0" ++ toString n else toString n

/-- Formatting of a nonnegative amount with two decimal digits; toFixed rounds
to the nearest hundredth, ties toward the larger value. -/
def fmt2Nonneg (q : ℚ) : String :=
  let cents : Nat := (Int.floor (q * 100 + 1 / 2)).toNat
  toString (cents / 100) ++ "." ++ pad2 (cents % 100)

/-- Formatting of an amount with two decimal digits; toFixed formats a negative
number by formatting its absolute value behind a minus sign. -/
def fmt2 (q : ℚ) : String :=
  if q < 0 then "-" ++ fmt2Nonneg (-q) else fmt2Nonneg q

/-! ## FxRateLedger -/

/-- FX rate row: one USD to PKR rate per calendar date.  Dates are modelled as
naturals (e.g. 20240115 for 2024-01-15); the handlers compare them only by
equality and order, which the YYYY-MM-DD strings in the source also respect. -/
structure FxRate where
  id : Nat
  date : Nat
  usd_to_pkr_rate : ℚ
  is_locked : Bool
deriving DecidableEq, Repr

/-- FX rate store: the fx_rates table plus the next serial id. -/
structure FxSt where
  rates : List FxRate
  nextId : Nat
deriving DecidableEq, Repr

/-- Accumulator of the latest-date row, mirroring the orderBy date descending,
limit 1 query. -/
def pickLater (acc : Option FxRate) (r : FxRate) : Option FxRate :=
  match acc with
  | none => some r
  | some b => if b.date < r.date then some r else acc

/-- Latest rate with date on or before d (the query filtering dates at most d,
ordered by date descending, limit 1). -/
def latestOnOrBefore (rates : List FxRate) (d : Nat) : Option FxRate :=
  (rates.filter (fun r => decide (r.date ≤ d))).foldl pickLater none

/-- Translation of getFxRate: exact date match first, otherwise the most recent
rate on or before the date, otherwise none. -/
def getFxRate (rates : List FxRate) (d : Nat) : Option FxRate :=
  match rates.find? (fun r => decide (r.date = d)) with
  | some r => some r
  | none => latestOnOrBefore rates d

/-- Row update performed by the update branch of setFxRate: the row whose id is
the id of the existing row for the date gets the new rate value. -/
def setUpd (rate : ℚ) (exid : Nat) (r : FxRate) : FxRate :=
  if r.id = exid then { r with usd_to_pkr_rate := rate } else r

/-- Translation of setFxRate: an existing locked rate for the date refuses the
update, an existing unlocked rate is updated in place by id, and an absent date
inserts a fresh unlocked row with the next serial id. -/
def setFxRate (s : FxSt) (date : Nat) (rate : ℚ) : Except String FxSt :=
  match s.rates.find? (fun r => decide (r.date = date)) with
  | some ex =>
      if ex.is_locked then .error "Cannot update locked FX rate"
      else .ok { s with rates := s.rates.map (setUpd rate ex.id) }
  | none =>
      .ok { rates := s.rates ++
              [{ id := s.nextId, date := date, usd_to_pkr_rate := rate,
                 is_locked := false }],
            nextId := s.nextId + 1 }

/-- Input of lockFxRate: the target id plus an optional new rate value and an
optional is_locked flag; the handler writes each field only when the input
carries it. -/
structure UpdateFxRateInput where
  id : Nat
  usd_to_pkr_rate : Option ℚ
  is_locked : Option Bool
deriving DecidableEq, Repr

/-- Row update performed by lockFxRate on the target id: is_locked and the rate
value are overwritten only when the input carries them. -/
def lockUpd (input : UpdateFxRateInput) (r : FxRate) : FxRate :=
  if r.id = input.id then
    { r with
      is_locked := input.is_locked.getD r.is_locked,
      usd_to_pkr_rate := input.usd_to_pkr_rate.getD r.usd_to_pkr_rate }
  else r

/-- Translation of lockFxRate: an absent id fails, an already locked rate
fails, and otherwise exactly the fields supplied in the input are written
(is_locked is copied from the input only when the input defines it). -/
def lockFxRate (s : FxSt) (input : UpdateFxRateInput) : Except String FxSt :=
  match s.rates.find? (fun r => decide (r.id = input.id)) with
  | none => .error "FX rate not found"
  | some ex =>
      if ex.is_locked then .error "FX rate is already locked"
      else .ok { s with rates := s.rates.map (lockUpd input) }

/-- Operations on the FX rate store. -/
inductive FxOp where
  | set (date : Nat) (rate : ℚ)
  | lock (input : UpdateFxRateInput)
deriving DecidableEq, Repr

/-- Apply an FX operation; a failed handler leaves the store unchanged, which
is faithful to the source because both handlers do all reads and checks before
their single write. -/
def fxStep (s : FxSt) : FxOp → FxSt
  | .set d v => ((setFxRate s d v).toOption).getD s
  | .lock input => ((lockFxRate s input).toOption).getD s

/-- Run a list of FX operations from a starting store. -/
def fxRun (s : FxSt) (ops : List FxOp) : FxSt := ops.foldl fxStep s

/-- Well-formed FX store: pairwise distinct dates, pairwise distinct ids, all
ids below the next serial id — the shape guaranteed by the unique date column
and the serial primary key. -/
def FxWF (s : FxSt) : Prop :=
  (s.rates.map (fun r => r.date)).Nodup ∧
  (s.rates.map (fun r => r.id)).Nodup ∧
  ∀ r ∈ s.rates, r.id < s.nextId

instance (s : FxSt) : Decidable (FxWF s) := by
  unfold FxWF; infer_instance

/-- Example rate for 2024-01-15 at 278.50 (scenario rates). -/
def fxRateJan15 : FxRate :=
  { id := 1, date := 20240115, usd_to_pkr_rate := 557 / 2, is_locked := false }

/-- Example rate for 2024-01-17 at 280. -/
def fxRateJan17 : FxRate :=
  { id := 2, date := 20240117, usd_to_pkr_rate := 280, is_locked := false }

/-- Example store holding one locked rate for 2024-01-15. -/
def lockedRateJan15 : FxRate :=
  { id := 1, date := 20240115, usd_to_pkr_rate := 557 / 2, is_locked := true }

/-- Store with a single locked rate. -/
def fxStoreLocked : FxSt := { rates := [lockedRateJan15], nextId := 2 }

/-- Store with a single unlocked rate. -/
def fxStoreUnlocked : FxSt := { rates := [fxRateJan15], nextId := 2 }

/-! ## CapitalMovementLedger -/

/-- Movement type enum. -/
inductive MovementType where
  | CONTRIBUTION
  | DRAW
deriving DecidableEq, Repr

/-- Currency enum. -/
inductive Currency where
  | USD
  | PKR
deriving DecidableEq, Repr

/-- Input of createCapitalMovement. -/
structure CreateCapitalMovementInput where
  partner_id : Nat
  movement_type : MovementType
  amount : ℚ
  currency : Currency
  description : String
  transaction_date : Nat
  created_by : Nat
deriving DecidableEq, Repr

/-- Stored capital movement row. -/
structure CapitalMovement where
  partner_id : Nat
  movement_type : MovementType
  amount : ℚ
  currency : Currency
  amount_base : ℚ
  fx_rate : Option ℚ
  description : String
  transaction_date : Nat
  created_by : Nat
deriving DecidableEq, Repr

/-- JS truthiness of a number: zero is falsy.  The source stores fx_rate with a
truthiness test on the numeric rate, so a zero rate would be stored as null. -/
def truthyQ (q : ℚ) : Bool := decide (q ≠ 0)

/-- Translation of createCapitalMovement: a USD movement looks up the most
recent rate on or before the transaction date (the same query latestOnOrBefore
embeds), fails when none exists, and otherwise stores that rate and the
converted base amount; a PKR movement stores no rate and the identity base
amount. -/
def createCapitalMovement (rates : List FxRate)
    (input : CreateCapitalMovementInput) : Except String CapitalMovement :=
  match input.currency with
  | .USD =>
      match latestOnOrBefore rates input.transaction_date with
      | none => .error "No FX rate available for the transaction date"
      | some r =>
          .ok { partner_id := input.partner_id,
                movement_type := input.movement_type,
                amount := input.amount, currency := input.currency,
                amount_base := input.amount * r.usd_to_pkr_rate,
                fx_rate := if truthyQ r.usd_to_pkr_rate
                           then some r.usd_to_pkr_rate else none,
                description := input.description,
                transaction_date := input.transaction_date,
                created_by := input.created_by }
  | .PKR =>
      .ok { partner_id := input.partner_id,
            movement_type := input.movement_type,
            amount := input.amount, currency := input.currency,
            amount_base := input.amount, fx_rate := none,
            description := input.description,
            transaction_date := input.transaction_date,
            created_by := input.created_by }

/-- Balance triple returned by getPartnerCapitalBalance. -/
structure PartnerBalance where
  usdBalance : ℚ
  pkrBalance : ℚ
  totalBalancePkr : ℚ
deriving DecidableEq, Repr

/-- Signed amount of a movement: contributions positive, draws negative. -/
def signedAmount (m : CapitalMovement) : ℚ :=
  match m.movement_type with
  | .CONTRIBUTION => m.amount
  | .DRAW => -m.amount

/-- Movements of the partner, restricted to dates on or before the cutoff when
one is supplied (the where-conditions of the balance query). -/
def movementsInScope (movements : List CapitalMovement) (partnerId : Nat)
    (asOfDate : Option Nat) : List CapitalMovement :=
  movements.filter (fun m =>
    decide (m.partner_id = partnerId) &&
    match asOfDate with
    | some d => decide (m.transaction_date ≤ d)
    | none => true)

/-- Signed accumulation per currency (USD total, PKR total), mirroring the
forEach loop of the handler. -/
def accumulate (l : List CapitalMovement) : ℚ × ℚ :=
  l.foldl (fun acc m =>
    match m.currency with
    | .USD => (acc.1 + signedAmount m, acc.2)
    | .PKR => (acc.1, acc.2 + signedAmount m)) (0, 0)

/-- Translation of getPartnerCapitalBalance: accumulate signed per-currency
subtotals of the partner's movements in scope, then add the USD subtotal
converted at the latest rate on or before the cutoff (asOfDate, or today when
absent) to the PKR subtotal; when the USD subtotal is zero the lookup is
skipped, and when no rate exists the USD component is silently omitted. -/
def getPartnerCapitalBalance (movements : List CapitalMovement)
    (rates : List FxRate) (partnerId : Nat) (asOfDate : Option Nat)
    (today : Nat) : PartnerBalance :=
  let bal := accumulate (movementsInScope movements partnerId asOfDate)
  let usdBalance := bal.1
  let pkrBalance := bal.2
  let totalBalancePkr :=
    if usdBalance ≠ 0 then
      match latestOnOrBefore rates (asOfDate.getD today) with
      | some r => pkrBalance + usdBalance * r.usd_to_pkr_rate
      | none => pkrBalance
    else pkrBalance
  { usdBalance := usdBalance, pkrBalance := pkrBalance,
    totalBalancePkr := totalBalancePkr }

/-- Rate of 280.0000 for 2024-01-15 (scenario 5 of the spec). -/
def fxRate280Jan15 : FxRate :=
  { id := 1, date := 20240115, usd_to_pkr_rate := 280, is_locked := false }

/-- Scenario input: 1000 USD contribution dated 2024-01-15. -/
def usd1000Jan15 : CreateCapitalMovementInput :=
  { partner_id := 1, movement_type := .CONTRIBUTION, amount := 1000,
    currency := .USD, description := "capital contribution",
    transaction_date := 20240115, created_by := 1 }

/-- Stored USD movement used to exercise the balance query without any FX
rate available. -/
def usdMovementJan10 : CapitalMovement :=
  { partner_id := 1, movement_type := .CONTRIBUTION, amount := 1000,
    currency := .USD, amount_base := 280000, fx_rate := some 280,
    description := "capital contribution", transaction_date := 20240110,
    created_by := 1 }

/-! ## JournalLedger and PeriodRegistry

The structures omit the created_at/updated_at bookkeeping timestamps, which no
handler reads.  The reference tables consumed only through existence checks
(users, accounts, partners, employees) are modelled as lists of ids. -/

/-- Journal status enum (the handlers use only DRAFT and POSTED). -/
inductive JStatus where
  | DRAFT
  | POSTED
deriving DecidableEq, Repr

/-- Period status enum. -/
inductive PStatus where
  | OPEN
  | LOCKED
deriving DecidableEq, Repr

/-- Accounting period row. -/
structure Period where
  id : Nat
  year : Nat
  month : Nat
  status : PStatus
  locked_at : Option Nat
  locked_by : Option Nat
deriving DecidableEq, Repr

/-- Journal header row. -/
structure Journal where
  id : Nat
  reference : String
  description : String
  transaction_date : Nat
  period_id : Nat
  status : JStatus
  posted_at : Option Nat
  posted_by : Option Nat
  created_by : Nat
deriving DecidableEq, Repr

/-- Journal line row. -/
structure JournalLine where
  id : Nat
  journal_id : Nat
  account_id : Nat
  description : String
  debit_amount : ℚ
  credit_amount : ℚ
  debit_amount_base : ℚ
  credit_amount_base : ℚ
  fx_rate : Option ℚ
  partner_id : Option Nat
  employee_id : Option Nat
deriving DecidableEq, Repr

/-- Store state for the journal and period handlers. -/
structure St where
  users : List Nat
  accounts : List Nat
  partners : List Nat
  employees : List Nat
  periods : List Period
  journals : List Journal
  lines : List JournalLine
  nextPeriodId : Nat
  nextJournalId : Nat
  nextLineId : Nat
deriving DecidableEq, Repr

/-- Input of createJournal. -/
structure CreateJournalInput where
  reference : String
  description : String
  transaction_date : Nat
  period_id : Nat
  created_by : Nat
deriving DecidableEq, Repr

/-- Input of addJournalLine. -/
structure CreateJournalLineInput where
  journal_id : Nat
  account_id : Nat
  description : String
  debit_amount : ℚ
  credit_amount : ℚ
  debit_amount_base : ℚ
  credit_amount_base : ℚ
  fx_rate : Option ℚ
  partner_id : Option Nat
  employee_id : Option Nat
deriving DecidableEq, Repr

/-- JS truthiness of an optional id: null/undefined and 0 are falsy, which is
how the source guards the optional partner and employee checks. -/
def truthyN : Option Nat → Bool
  | none => false
  | some n => decide (n ≠ 0)

/-- Value stored for an optional id field via the or-null idiom of the
source: a falsy input is stored as null. -/
def jsOrNullN (o : Option Nat) : Option Nat :=
  if truthyN o then o else none

/-- Value stored for the optional fx_rate via its truthiness test: an absent
or zero rate is stored as null. -/
def jsOrNullQ : Option ℚ → Option ℚ
  | none => none
  | some q => if truthyQ q then some q else none

/-- Lines of a journal (the select by journal_id). -/
def journalLines (s : St) (jid : Nat) : List JournalLine :=
  s.lines.filter (fun l => decide (l.journal_id = jid))

/-- Journal row created by createJournal. -/
def mkJournal (s : St) (input : CreateJournalInput) : Journal :=
  { id := s.nextJournalId, reference := input.reference,
    description := input.description,
    transaction_date := input.transaction_date,
    period_id := input.period_id, status := .DRAFT,
    posted_at := none, posted_by := none, created_by := input.created_by }

/-- Translation of createJournal: the period must exist and be unlocked and
the creating user must exist; the new journal starts in DRAFT. -/
def createJournal (s : St) (input : CreateJournalInput) : Except String St :=
  match s.periods.find? (fun p => decide (p.id = input.period_id)) with
  | none => .error "Period not found"
  | some p =>
      if p.status = PStatus.LOCKED then
        .error "Cannot create journal in locked period"
      else if input.created_by ∈ s.users then
        .ok { s with journals := s.journals ++ [mkJournal s input],
                     nextJournalId := s.nextJournalId + 1 }
      else .error "User not found"

/-- Line row created by addJournalLine. -/
def mkLine (s : St) (input : CreateJournalLineInput) : JournalLine :=
  { id := s.nextLineId, journal_id := input.journal_id,
    account_id := input.account_id, description := input.description,
    debit_amount := input.debit_amount, credit_amount := input.credit_amount,
    debit_amount_base := input.debit_amount_base,
    credit_amount_base := input.credit_amount_base,
    fx_rate := jsOrNullQ input.fx_rate,
    partner_id := jsOrNullN input.partner_id,
    employee_id := jsOrNullN input.employee_id }

/-- Translation of addJournalLine: the journal must exist and not be posted,
the account must exist, and a truthy partner or employee id must exist; no
balance check happens here. -/
def addJournalLine (s : St) (input : CreateJournalLineInput) :
    Except String St :=
  match s.journals.find? (fun j => decide (j.id = input.journal_id)) with
  | none => .error "Journal not found"
  | some j =>
      if j.status = JStatus.POSTED then .error "Cannot modify posted journal"
      else if input.account_id ∉ s.accounts then .error "Account not found"
      else if truthyN input.partner_id ∧ input.partner_id.getD 0 ∉ s.partners
        then .error "Partner not found"
      else if truthyN input.employee_id ∧ input.employee_id.getD 0 ∉ s.employees
        then .error "Employee not found"
      else .ok { s with lines := s.lines ++ [mkLine s input],
                        nextLineId := s.nextLineId + 1 }

/-- Translation of deleteJournalLine: the line must exist, its journal must
exist and not be posted; the delete removes the rows with the given line id. -/
def deleteJournalLine (s : St) (lineId : Nat) : Except String St :=
  match s.lines.find? (fun l => decide (l.id = lineId)) with
  | none => .error "Journal line not found"
  | some l =>
      match s.journals.find? (fun j => decide (j.id = l.journal_id)) with
      | none => .error "Associated journal not found"
      | some j =>
          if j.status = JStatus.POSTED then
            .error "Cannot delete line from posted journal"
          else .ok { s with
            lines := s.lines.filter (fun l2 => decide (l2.id ≠ lineId)) }

/-- Per-line validation of validateJournal: both positive amounts, or both
zero amounts, produce one error; anything else none. -/
def lineErr (l : JournalLine) : Option String :=
  if 0 < l.debit_amount ∧ 0 < l.credit_amount then
    some ("Line " ++ toString l.id ++
      ": Cannot have both debit and credit amounts")
  else if l.debit_amount = 0 ∧ l.credit_amount = 0 then
    some ("Line " ++ toString l.id ++
      ": Must have either debit or credit amount")
  else none

/-- Total of the debit amounts (the running += accumulation of the source is
the list sum). -/
def totalDebits (L : List JournalLine) : ℚ :=
  (L.map (fun l => l.debit_amount)).sum

/-- Total of the credit amounts. -/
def totalCredits (L : List JournalLine) : ℚ :=
  (L.map (fun l => l.credit_amount)).sum

/-- Total of the base-currency debit amounts. -/
def totalDebitsBase (L : List JournalLine) : ℚ :=
  (L.map (fun l => l.debit_amount_base)).sum

/-- Total of the base-currency credit amounts. -/
def totalCreditsBase (L : List JournalLine) : ℚ :=
  (L.map (fun l => l.credit_amount_base)).sum

/-- Transaction-currency imbalance message, with both totals formatted to two
decimals. -/
def debitsMsg (td tc : ℚ) : String :=
  "Debits (" ++ fmt2 td ++ ") do not equal credits (" ++ fmt2 tc ++ ")"

/-- Base-currency imbalance message. -/
def baseMsg (td tc : ℚ) : String :=
  "Base currency debits (" ++ fmt2 td ++
    ") do not equal base currency credits (" ++ fmt2 tc ++ ")"

/-- Translation of validateJournal on the lines of a journal: an empty journal
returns early with only the no-lines error; otherwise the per-line errors (in
line order) are followed by the transaction-currency imbalance error and the
base-currency imbalance error, each present exactly when the absolute
difference of the totals exceeds the 0.01 tolerance; isValid is emptiness of
the error list. -/
def validateJournal (L : List JournalLine) : Bool × List String :=
  if L.isEmpty then (false, ["Journal has no lines"])
  else
    let errs := L.filterMap lineErr ++
      (if tolerance < |totalDebits L - totalCredits L| then
        [debitsMsg (totalDebits L) (totalCredits L)] else []) ++
      (if tolerance < |totalDebitsBase L - totalCreditsBase L| then
        [baseMsg (totalDebitsBase L) (totalCreditsBase L)] else [])
    (errs.isEmpty, errs)

/-- Join with a separator, as the array join of the source. -/
def joinSep (sep : String) : List String → String
  | [] => ""
  | [x] => x
  | x :: xs => x ++ sep ++ joinSep sep xs

/-- Journal update applied by the posting commit. -/
def postUpd (id postedBy now : Nat) (j : Journal) : Journal :=
  if j.id = id then
    { j with status := .POSTED, posted_at := some now,
             posted_by := some postedBy }
  else j

/-- Translation of postJournal: journal found and not yet posted, period found
and open (a missing period raises the same locked-period error as a locked
one), validation passes, the posting user exists, and only then the single
update marks the journal POSTED with posted_at/posted_by set.  Every failing
check happens before the write, so an error leaves the store untouched. -/
def postJournal (s : St) (id postedBy now : Nat) : Except String St :=
  match s.journals.find? (fun j => decide (j.id = id)) with
  | none => .error "Journal not found"
  | some j =>
      if j.status = JStatus.POSTED then .error "Journal already posted"
      else
        match s.periods.find? (fun p => decide (p.id = j.period_id)) with
        | none => .error "Cannot post journal in locked period"
        | some p =>
            if p.status = PStatus.LOCKED then
              .error "Cannot post journal in locked period"
            else if (validateJournal (journalLines s id)).1 then
              if postedBy ∈ s.users then
                .ok { s with
                  journals := s.journals.map (postUpd id postedBy now) }
              else .error "User not found"
            else
              .error ("Journal validation failed: " ++
                joinSep ", " (validateJournal (journalLines s id)).2)

/-- Translation of createPeriod: duplicate (year, month) is refused, otherwise
a new OPEN period is inserted. -/
def createPeriod (s : St) (year month : Nat) : Except String St :=
  if (s.periods.find?
      (fun p => decide (p.year = year ∧ p.month = month))).isSome then
    .error ("Period " ++ toString year ++ "-" ++ pad2 month ++
      " already exists")
  else
    .ok { s with
      periods := s.periods ++
        [{ id := s.nextPeriodId, year := year, month := month,
           status := .OPEN, locked_at := none, locked_by := none }],
      nextPeriodId := s.nextPeriodId + 1 }

/-- Number of DRAFT journals referencing the period. -/
def draftCount (s : St) (periodId : Nat) : Nat :=
  (s.journals.filter (fun j =>
    decide (j.period_id = periodId ∧ j.status = JStatus.DRAFT))).length

/-- Outstanding-draft error message of validatePeriodClose. -/
def draftMsg (n : Nat) : String :=
  "Period contains " ++ toString n ++
    " draft journal(s) that must be posted first"

/-- Translation of validatePeriodClose: a missing period returns early with
only the not-found error, an already locked period returns early with only the
already-locked error, and otherwise the draft-journal count produces one error
when positive; canClose is emptiness of the error list.  The FX-rate read of
the source has no effect on the result and is omitted. -/
def validatePeriodClose (s : St) (periodId : Nat) : Bool × List String :=
  match s.periods.find? (fun p => decide (p.id = periodId)) with
  | none => (false, ["Period not found"])
  | some p =>
      if p.status = PStatus.LOCKED then (false, ["Period is already locked"])
      else
        let errs := if 0 < draftCount s periodId
                    then [draftMsg (draftCount s periodId)] else []
        (errs.isEmpty, errs)

/-- Period update applied by the locking commit. -/
def lockUpdPeriod (id lockedBy now : Nat) (p : Period) : Period :=
  if p.id = id then
    { p with status := .LOCKED, locked_at := some now,
             locked_by := some lockedBy }
  else p

/-- Translation of lockPeriod: validatePeriodClose must pass and the locking
user must exist before the single update locks the period.  The final
not-found check of the source is unreachable because a passing validation
requires the period to exist. -/
def lockPeriod (s : St) (id lockedBy now : Nat) : Except String St :=
  if (validatePeriodClose s id).1 then
    if lockedBy ∈ s.users then
      .ok { s with periods := s.periods.map (lockUpdPeriod id lockedBy now) }
    else .error "Invalid user ID for locking period"
  else
    .error ("Cannot lock period: " ++
      joinSep ", " (validatePeriodClose s id).2)

/-- Operations of the journal posting and period locking subsystem. -/
inductive Op where
  | createPeriod (year month : Nat)
  | lockPeriod (id lockedBy now : Nat)
  | createJournal (input : CreateJournalInput)
  | addJournalLine (input : CreateJournalLineInput)
  | deleteJournalLine (lineId : Nat)
  | postJournal (id postedBy now : Nat)
deriving DecidableEq, Repr

/-- Dispatch of an operation to its handler. -/
def applyOp (s : St) : Op → Except String St
  | .createPeriod y m => createPeriod s y m
  | .lockPeriod id lockedBy now => lockPeriod s id lockedBy now
  | .createJournal input => createJournal s input
  | .addJournalLine input => addJournalLine s input
  | .deleteJournalLine lineId => deleteJournalLine s lineId
  | .postJournal id postedBy now => postJournal s id postedBy now

/-- Apply an operation; a failed handler leaves the store unchanged, faithful
to the source where every throw happens before the single write. -/
def step (s : St) (op : Op) : St :=
  match applyOp s op with
  | .ok s2 => s2
  | .error _ => s

/-- Run a list of operations from a starting store. -/
def run (s : St) (ops : List Op) : St := ops.foldl step s

/-- Initial store: reference tables arbitrary, no periods, journals or lines,
serial counters at 1. -/
def initSt (users accounts partners employees : List Nat) : St :=
  { users := users, accounts := accounts, partners := partners,
    employees := employees, periods := [], journals := [], lines := [],
    nextPeriodId := 1, nextJournalId := 1, nextLineId := 1 }

/-- Shape of a line set accepted by validation: nonempty, no line with both
sides positive, no line with both sides zero, and both currency totals
balanced within the tolerance. -/
def linesOK (L : List JournalLine) : Prop :=
  L ≠ [] ∧
  (∀ l ∈ L, ¬(0 < l.debit_amount ∧ 0 < l.credit_amount) ∧
    ¬(l.debit_amount = 0 ∧ l.credit_amount = 0)) ∧
  |totalDebits L - totalCredits L| ≤ tolerance ∧
  |totalDebitsBase L - totalCreditsBase L| ≤ tolerance

/-- Posted-journal invariant: every POSTED journal has an accepted line set. -/
def postedOK (s : St) : Prop :=
  ∀ j ∈ s.journals, j.status = JStatus.POSTED → linesOK (journalLines s j.id)

/-- Locked-period invariant: no DRAFT journal references a LOCKED period. -/
def lockedOK (s : St) : Prop :=
  ∀ p ∈ s.periods, p.status = PStatus.LOCKED →
    ∀ j ∈ s.journals, j.period_id = p.id → j.status ≠ JStatus.DRAFT

/-- Serial-key well-formedness of the store. -/
def WF (s : St) : Prop :=
  (s.periods.map (fun p => p.id)).Nodup ∧
  (∀ p ∈ s.periods, p.id < s.nextPeriodId) ∧
  (s.journals.map (fun j => j.id)).Nodup ∧
  (∀ j ∈ s.journals, j.id < s.nextJournalId) ∧
  (s.lines.map (fun l => l.id)).Nodup ∧
  (∀ l ∈ s.lines, l.id < s.nextLineId)

/-- Combined store invariant. -/
def Inv (s : St) : Prop := WF s ∧ postedOK s ∧ lockedOK s

/-- Open scenario period 2024-01. -/
def period1open : Period :=
  { id := 1, year := 2024, month := 1, status := .OPEN,
    locked_at := none, locked_by := none }

/-- Draft scenario journal in period 1. -/
def journal1draft : Journal :=
  { id := 1, reference := "JE-001", description := "unbalanced entry",
    transaction_date := 20240115, period_id := 1, status := .DRAFT,
    posted_at := none, posted_by := none, created_by := 1 }

/-- Scenario line: 1000.00 debit. -/
def line1000 : JournalLine :=
  { id := 1, journal_id := 1, account_id := 1, description := "debit side",
    debit_amount := 1000, credit_amount := 0, debit_amount_base := 1000,
    credit_amount_base := 0, fx_rate := none, partner_id := none,
    employee_id := none }

/-- Scenario line: 500.00 credit. -/
def line500 : JournalLine :=
  { id := 2, journal_id := 1, account_id := 1, description := "credit side",
    debit_amount := 0, credit_amount := 500, debit_amount_base := 0,
    credit_amount_base := 500, fx_rate := none, partner_id := none,
    employee_id := none }

/-- Store holding the unbalanced draft journal (debits 1000 vs credits 500)
in an open period, with user 1 present. -/
def unbalancedSt : St :=
  { users := [1], accounts := [1], partners := [], employees := [],
    periods := [period1open], journals := [journal1draft],
    lines := [line1000, line500], nextPeriodId := 2, nextJournalId := 2,
    nextLineId := 3 }

/-- Locked scenario period 2024-01. -/
def period1locked : Period :=
  { id := 1, year := 2024, month := 1, status := .LOCKED,
    locked_at := some 88, locked_by := some 1 }

/-- Test fixture: a locked period that still contains one draft journal, used
to probe validatePeriodClose as a pure function of the store. -/
def lockedPeriodSt : St :=
  { users := [1], accounts := [1], partners := [], employees := [],
    periods := [period1locked], journals := [journal1draft], lines := [],
    nextPeriodId := 2, nextJournalId := 2, nextLineId := 1 }

/-- Input attempting to create a journal in the locked period. -/
def createInLockedInput : CreateJournalInput :=
  { reference := "JE-002", description := "late entry",
    transaction_date := 20240120, period_id := 1, created_by := 1 }

/-- Balanced debit line input (scenario 1). -/
def balancedDebitInput : CreateJournalLineInput :=
  { journal_id := 1, account_id := 1, description := "debit side",
    debit_amount := 1000, credit_amount := 0, debit_amount_base := 1000,
    credit_amount_base := 0, fx_rate := none, partner_id := none,
    employee_id := none }

/-- Balanced credit line input (scenario 1). -/
def balancedCreditInput : CreateJournalLineInput :=
  { journal_id := 1, account_id := 1, description := "credit side",
    debit_amount := 0, credit_amount := 1000, debit_amount_base := 0,
    credit_amount_base := 1000, fx_rate := none, partner_id := none,
    employee_id := none }

/-- Scenario operation list: create a period and a journal, add two balanced
lines, post. -/
def scenarioOps : List Op :=
  [Op.createPeriod 2024 1,
   Op.createJournal
     { reference := "JE-001", description := "balanced entry",
       transaction_date := 20240115, period_id := 1, created_by := 1 },
   Op.addJournalLine balancedDebitInput,
   Op.addJournalLine balancedCreditInput,
   Op.postJournal 1 1 77]

/-- The journal row resulting from running the scenario operations. -/
def postedJournal1 : Journal :=
  { id := 1, reference := "JE-001", description := "balanced entry",
    transaction_date := 20240115, period_id := 1, status := .POSTED,
    posted_at := some 77, posted_by := some 1, created_by := 1 }

/-! ### Basic lemmas about the FX definitions -/

theorem pickLater_go (l : List FxRate) (b : FxRate) :
    ∃ c, List.foldl pickLater (some b) l = some c ∧ (c = b ∨ c ∈ l) ∧
      b.date ≤ c.date ∧ ∀ r ∈ l, r.date ≤ c.date := by
  induction l generalizing b with
  | nil => exact ⟨b, rfl, Or.inl rfl, le_refl _, by simp⟩
  | cons x xs ih =>
    simp only [List.foldl_cons, pickLater]
    by_cases hx : b.date < x.date
    · rw [if_pos hx]
      obtain ⟨c, h1, h2, h3, h4⟩ := ih x
      refine ⟨c, h1, ?_, le_of_lt (lt_of_lt_of_le hx h3), ?_⟩
      · rcases h2 with h | h
        · exact Or.inr (by simp [h])
        · exact Or.inr (List.mem_cons_of_mem _ h)
      · intro r hr
        rcases List.mem_cons.mp hr with h | h
        · exact h ▸ h3
        · exact h4 r h
    · rw [if_neg hx]
      obtain ⟨c, h1, h2, h3, h4⟩ := ih b
      refine ⟨c, h1, ?_, h3, ?_⟩
      · rcases h2 with h | h
        · exact Or.inl h
        · exact Or.inr (List.mem_cons_of_mem _ h)
      · intro r hr
        rcases List.mem_cons.mp hr with h | h
        · exact h ▸ le_trans (le_of_not_lt hx) h3
        · exact h4 r h

theorem latestOnOrBefore_none (rates : List FxRate) (d : Nat)
    (h : ∀ r ∈ rates, ¬ r.date ≤ d) : latestOnOrBefore rates d = none := by
  unfold latestOnOrBefore
  have : rates.filter (fun r => decide (r.date ≤ d)) = [] := by
    apply List.filter_eq_nil_iff.mpr
    intro r hr
    simpa using h r hr
  rw [this]
  rfl

theorem latestOnOrBefore_found (rates : List FxRate) (d : Nat) (r : FxRate)
    (hr : r ∈ rates) (hle : r.date ≤ d) :
    ∃ b ∈ rates, latestOnOrBefore rates d = some b ∧ b.date ≤ d ∧
      ∀ r' ∈ rates, r'.date ≤ d → r'.date ≤ b.date := by
  unfold latestOnOrBefore
  have hmem : r ∈ rates.filter (fun r => decide (r.date ≤ d)) := by
    simp [List.mem_filter, hr, hle]
  obtain ⟨x, xs, hcons⟩ := List.exists_cons_of_ne_nil (List.ne_nil_of_mem hmem)
  rw [hcons]
  simp only [List.foldl_cons, pickLater]
  obtain ⟨c, h1, h2, h3, h4⟩ := pickLater_go xs x
  refine ⟨c, ?_, h1, ?_, ?_⟩
  · have : c ∈ rates.filter (fun r => decide (r.date ≤ d)) := by
      rw [hcons]
      rcases h2 with h | h
      · exact h ▸ List.mem_cons_self _ _
      · exact List.mem_cons_of_mem _ h
    exact List.mem_of_mem_filter this
  · have : c ∈ rates.filter (fun r => decide (r.date ≤ d)) := by
      rw [hcons]
      rcases h2 with h | h
      · exact h ▸ List.mem_cons_self _ _
      · exact List.mem_cons_of_mem _ h
    simpa using (List.mem_filter.mp this).2
  · intro r' hr' hle'
    have : r' ∈ rates.filter (fun r => decide (r.date ≤ d)) := by
      simp [List.mem_filter, hr', hle']
    rw [hcons] at this
    rcases List.mem_cons.mp this with h | h
    · exact h ▸ h3
    · exact h4 r' h

theorem find?_date_eq (rates : List FxRate) (R : FxRate)
    (hnd : (rates.map (fun r => r.date)).Nodup) (hR : R ∈ rates) :
    rates.find? (fun r => decide (r.date = R.date)) = some R := by
  have hsome : (rates.find? (fun r => decide (r.date = R.date))).isSome := by
    rw [List.find?_isSome]
    exact ⟨R, hR, by simp⟩
  obtain ⟨r, hr⟩ := Option.isSome_iff_exists.mp hsome
  have hmem := List.mem_of_find?_eq_some hr
  have hdate : r.date = R.date := by simpa using List.find?_some hr
  rw [hr, List.inj_on_of_nodup_map hnd hmem hR hdate]

theorem find?_id_eq (rates : List FxRate) (R : FxRate)
    (hnd : (rates.map (fun r => r.id)).Nodup) (hR : R ∈ rates) :
    rates.find? (fun r => decide (r.id = R.id)) = some R := by
  have hsome : (rates.find? (fun r => decide (r.id = R.id))).isSome := by
    rw [List.find?_isSome]
    exact ⟨R, hR, by simp⟩
  obtain ⟨r, hr⟩ := Option.isSome_iff_exists.mp hsome
  have hmem := List.mem_of_find?_eq_some hr
  have hid : r.id = R.id := by simpa using List.find?_some hr
  rw [hr, List.inj_on_of_nodup_map hnd hmem hR hid]

theorem map_field_invariant {α : Type} (f : FxRate → FxRate) (g : FxRate → α)
    (l : List FxRate) (h : ∀ r, g (f r) = g r) :
    (l.map f).map g = l.map g := by
  rw [List.map_map]
  exact List.map_congr_left (fun r _ => h r)

theorem setUpd_id (v : ℚ) (e : Nat) (r : FxRate) : (setUpd v e r).id = r.id := by
  unfold setUpd
  by_cases hc : r.id = e <;> simp [hc]

theorem setUpd_date (v : ℚ) (e : Nat) (r : FxRate) :
    (setUpd v e r).date = r.date := by
  unfold setUpd
  by_cases hc : r.id = e <;> simp [hc]

theorem setUpd_skip (v : ℚ) (e : Nat) (r : FxRate) (h : r.id ≠ e) :
    setUpd v e r = r := by
  unfold setUpd
  simp [h]

theorem lockUpd_id (input : UpdateFxRateInput) (r : FxRate) :
    (lockUpd input r).id = r.id := by
  unfold lockUpd
  by_cases hc : r.id = input.id <;> simp [hc]

theorem lockUpd_date (input : UpdateFxRateInput) (r : FxRate) :
    (lockUpd input r).date = r.date := by
  unfold lockUpd
  by_cases hc : r.id = input.id <;> simp [hc]

theorem lockUpd_skip (input : UpdateFxRateInput) (r : FxRate)
    (h : r.id ≠ input.id) : lockUpd input r = r := by
  unfold lockUpd
  simp [h]

theorem fxStep_set_insert (s : FxSt) (d : Nat) (v : ℚ)
    (hfind : s.rates.find? (fun r => decide (r.date = d)) = none) :
    fxStep s (.set d v) =
      { rates := s.rates ++
          [{ id := s.nextId, date := d, usd_to_pkr_rate := v,
             is_locked := false }],
        nextId := s.nextId + 1 } := by
  simp [fxStep, setFxRate, hfind, Except.toOption]

theorem fxStep_set_locked (s : FxSt) (d : Nat) (v : ℚ) (ex : FxRate)
    (hfind : s.rates.find? (fun r => decide (r.date = d)) = some ex)
    (hexlock : ex.is_locked = true) : fxStep s (.set d v) = s := by
  simp [fxStep, setFxRate, hfind, hexlock, Except.toOption]

theorem fxStep_set_update (s : FxSt) (d : Nat) (v : ℚ) (ex : FxRate)
    (hfind : s.rates.find? (fun r => decide (r.date = d)) = some ex)
    (hexlock : ex.is_locked = false) :
    fxStep s (.set d v) = { s with rates := s.rates.map (setUpd v ex.id) } := by
  simp [fxStep, setFxRate, hfind, hexlock, Except.toOption]

theorem fxStep_lock_notfound (s : FxSt) (input : UpdateFxRateInput)
    (hfind : s.rates.find? (fun r => decide (r.id = input.id)) = none) :
    fxStep s (.lock input) = s := by
  simp [fxStep, lockFxRate, hfind, Except.toOption]

theorem fxStep_lock_locked (s : FxSt) (input : UpdateFxRateInput) (ex : FxRate)
    (hfind : s.rates.find? (fun r => decide (r.id = input.id)) = some ex)
    (hexlock : ex.is_locked = true) : fxStep s (.lock input) = s := by
  simp [fxStep, lockFxRate, hfind, hexlock, Except.toOption]

theorem fxStep_lock_update (s : FxSt) (input : UpdateFxRateInput) (ex : FxRate)
    (hfind : s.rates.find? (fun r => decide (r.id = input.id)) = some ex)
    (hexlock : ex.is_locked = false) :
    fxStep s (.lock input) = { s with rates := s.rates.map (lockUpd input) } := by
  simp [fxStep, lockFxRate, hfind, hexlock, Except.toOption]

theorem fx_inv_step (R : FxRate) (s : FxSt) (h : FxWF s)
    (hR : R ∈ s.rates) (hlock : R.is_locked = true) (op : FxOp) :
    FxWF (fxStep s op) ∧ R ∈ (fxStep s op).rates := by
  obtain ⟨hdates, hids, hbound⟩ := h
  cases op with
  | set d v =>
    cases hfind : s.rates.find? (fun r => decide (r.date = d)) with
    | none =>
      rw [fxStep_set_insert s d v hfind]
      have hfresh : ∀ r ∈ s.rates, r.date ≠ d := by
        intro r hr
        simpa using List.find?_eq_none.mp hfind r hr
      refine ⟨⟨?_, ?_, ?_⟩, List.mem_append_left _ hR⟩
      · simp only [List.map_append, List.map_cons, List.map_nil]
        rw [List.nodup_append]
        refine ⟨hdates, List.nodup_singleton _, ?_⟩
        intro x hx
        simp only [List.mem_singleton]
        obtain ⟨r, hr, hrx⟩ := List.mem_map.mp hx
        intro hcontra
        exact hfresh r hr (hrx ▸ hcontra)
      · simp only [List.map_append, List.map_cons, List.map_nil]
        rw [List.nodup_append]
        refine ⟨hids, List.nodup_singleton _, ?_⟩
        intro x hx
        simp only [List.mem_singleton]
        obtain ⟨r, hr, hrx⟩ := List.mem_map.mp hx
        intro hcontra
        exact absurd (hrx ▸ hcontra ▸ hbound r hr) (lt_irrefl _)
      · intro r hr
        rcases List.mem_append.mp hr with hmem | hmem
        · exact Nat.lt_succ_of_lt (hbound r hmem)
        · simp only [List.mem_singleton] at hmem
          subst hmem
          exact Nat.lt_succ_self _
    | some ex =>
      have hexmem := List.mem_of_find?_eq_some hfind
      cases hexlock : ex.is_locked with
      | true =>
        rw [fxStep_set_locked s d v ex hfind hexlock]
        exact ⟨⟨hdates, hids, hbound⟩, hR⟩
      | false =>
        rw [fxStep_set_update s d v ex hfind hexlock]
        have hRid : R.id ≠ ex.id := by
          intro hcontra
          have : R = ex := List.inj_on_of_nodup_map hids hR hexmem hcontra
          rw [this, hexlock] at hlock
          exact Bool.false_ne_true hlock
        refine ⟨⟨?_, ?_, ?_⟩, ?_⟩
        · rw [map_field_invariant _ _ _ (setUpd_date v ex.id)]
          exact hdates
        · rw [map_field_invariant _ _ _ (setUpd_id v ex.id)]
          exact hids
        · intro r hr
          obtain ⟨r₀, hr₀, hr₀x⟩ := List.mem_map.mp hr
          rw [← hr₀x, setUpd_id]
          exact hbound r₀ hr₀
        · exact List.mem_map.mpr ⟨R, hR, setUpd_skip v ex.id R hRid⟩
  | lock input =>
    cases hfind : s.rates.find? (fun r => decide (r.id = input.id)) with
    | none =>
      rw [fxStep_lock_notfound s input hfind]
      exact ⟨⟨hdates, hids, hbound⟩, hR⟩
    | some ex =>
      have hexmem := List.mem_of_find?_eq_some hfind
      have hexid : ex.id = input.id := by simpa using List.find?_some hfind
      cases hexlock : ex.is_locked with
      | true =>
        rw [fxStep_lock_locked s input ex hfind hexlock]
        exact ⟨⟨hdates, hids, hbound⟩, hR⟩
      | false =>
        rw [fxStep_lock_update s input ex hfind hexlock]
        have hRid : R.id ≠ input.id := by
          intro hcontra
          have : R = ex :=
            List.inj_on_of_nodup_map hids hR hexmem (hcontra.trans hexid.symm)
          rw [this, hexlock] at hlock
          exact Bool.false_ne_true hlock
        refine ⟨⟨?_, ?_, ?_⟩, ?_⟩
        · rw [map_field_invariant _ _ _ (lockUpd_date input)]
          exact hdates
        · rw [map_field_invariant _ _ _ (lockUpd_id input)]
          exact hids
        · intro r hr
          obtain ⟨r₀, hr₀, hr₀x⟩ := List.mem_map.mp hr
          rw [← hr₀x, lockUpd_id]
          exact hbound r₀ hr₀
        · exact List.mem_map.mpr ⟨R, hR, lockUpd_skip input R hRid⟩

theorem fx_inv_run (R : FxRate) (s : FxSt) (h : FxWF s)
    (hR : R ∈ s.rates) (hlock : R.is_locked = true) (ops : List FxOp) :
    FxWF (fxRun s ops) ∧ R ∈ (fxRun s ops).rates := by
  induction ops generalizing s with
  | nil => exact ⟨h, hR⟩
  | cons op ops ih =>
    obtain ⟨h1, h2⟩ := fx_inv_step R s h hR hlock op
    exact ih (fxStep s op) h1 h2

/-- C4: for every query date, getFxRate returns the rate whose date equals the
query when one exists, otherwise the rate with the greatest date on or before
the query when any exists, otherwise none; in particular with rates only at
2024-01-15 and 2024-01-17 the query 2024-01-16 returns the 2024-01-15 rate. -/
theorem getFxRate_spec (rates : List FxRate) (d : Nat)
    (hdates : (rates.map (fun r => r.date)).Nodup) :
    (∀ r ∈ rates, r.date = d → getFxRate rates d = some r) ∧
    ((∀ r ∈ rates, r.date ≠ d) → ∀ r ∈ rates, r.date ≤ d →
      ∃ b ∈ rates, getFxRate rates d = some b ∧ b.date ≤ d ∧
        ∀ r' ∈ rates, r'.date ≤ d → r'.date ≤ b.date) ∧
    ((∀ r ∈ rates, ¬ r.date ≤ d) → getFxRate rates d = none) ∧
    getFxRate [fxRateJan15, fxRateJan17] 20240116 = some fxRateJan15 := by
  refine ⟨?_, ?_, ?_, by rfl⟩
  · intro r hr hrd
    subst hrd
    unfold getFxRate
    rw [find?_date_eq rates r hdates hr]
  · intro hne r hr hle
    have hfind : rates.find? (fun r => decide (r.date = d)) = none := by
      apply List.find?_eq_none.mpr
      intro a ha
      simpa using hne a ha
    obtain ⟨b, hbmem, heq, hble, hmax⟩ := latestOnOrBefore_found rates d r hr hle
    refine ⟨b, hbmem, ?_, hble, hmax⟩
    unfold getFxRate
    rw [hfind]
    exact heq
  · intro hnone
    have hfind : rates.find? (fun r => decide (r.date = d)) = none := by
      apply List.find?_eq_none.mpr
      intro a ha
      simp only [decide_eq_true_eq]
      intro hcontra
      exact hnone a ha (le_of_eq hcontra)
    unfold getFxRate
    rw [hfind]
    exact latestOnOrBefore_none rates d hnone

/-- Witness for getFxRate_spec on the two-rate scenario store. -/
theorem getFxRate_spec_witness :
    ([fxRateJan15, fxRateJan17].map (fun r => r.date)).Nodup ∧
    getFxRate [fxRateJan15, fxRateJan17] 20240116 = some fxRateJan15 :=
  ⟨by decide, (getFxRate_spec [fxRateJan15, fxRateJan17] 20240116 (by decide)).2.2.2⟩

/-- C5: once a rate is locked, after any further sequence of set and lock
operations the locked row is still present and unchanged, any setFxRate call
targeting its date fails with the locked error, and setFxRate for a date absent
from the store still succeeds. -/
theorem lockedFxRate_immutable (s : FxSt) (R : FxRate) (h : FxWF s)
    (hR : R ∈ s.rates) (hlock : R.is_locked = true) (ops : List FxOp) :
    R ∈ (fxRun s ops).rates ∧
    (∀ v, setFxRate (fxRun s ops) R.date v =
      .error "Cannot update locked FX rate") ∧
    (∀ r' ∈ (fxRun s ops).rates, r'.id = R.id → r' = R) ∧
    (∀ d v, (∀ r' ∈ (fxRun s ops).rates, r'.date ≠ d) →
      ∃ s', setFxRate (fxRun s ops) d v = .ok s') := by
  obtain ⟨hwf, hmem⟩ := fx_inv_run R s h hR hlock ops
  obtain ⟨hdates, hids, hbound⟩ := hwf
  refine ⟨hmem, ?_, ?_, ?_⟩
  · intro v
    unfold setFxRate
    rw [find?_date_eq _ R hdates hmem]
    simp [hlock]
  · intro r' hr' hid
    exact List.inj_on_of_nodup_map hids hr' hmem hid
  · intro d v hfresh
    have hfind : (fxRun s ops).rates.find? (fun r => decide (r.date = d)) = none := by
      apply List.find?_eq_none.mpr
      intro a ha
      simpa using hfresh a ha
    unfold setFxRate
    rw [hfind]
    exact ⟨_, rfl⟩

/-- Witness for lockedFxRate_immutable: a locked 2024-01-15 rate still refuses
an update after an unrelated operation has run. -/
theorem lockedFxRate_immutable_witness :
    FxWF fxStoreLocked ∧ lockedRateJan15 ∈ fxStoreLocked.rates ∧
    lockedRateJan15.is_locked = true ∧
    setFxRate (fxRun fxStoreLocked [FxOp.set 20240116 290]) 20240115 280 =
      .error "Cannot update locked FX rate" := by
  refine ⟨by decide, by simp [fxStoreLocked], by rfl, ?_⟩
  have h := (lockedFxRate_immutable fxStoreLocked lockedRateJan15 (by decide)
    (by simp [fxStoreLocked]) (by rfl) [FxOp.set 20240116 290]).2.1 280
  simpa [lockedRateJan15] using h

/-- C8 counterexample: a lockFxRate call whose input carries no is_locked flag
succeeds on an unlocked rate and leaves it unlocked, refuting the claim that
after any successful lockFxRate call the targeted rate is locked. -/
theorem lockFxRate_not_always_locking :
    lockFxRate fxStoreUnlocked
      { id := 1, usd_to_pkr_rate := none, is_locked := none } =
      .ok fxStoreUnlocked ∧
    ∀ r ∈ fxStoreUnlocked.rates, r.is_locked = false :=
  ⟨by rfl, by decide⟩

/-- C8 amended: lockFxRate fails NotFound on an absent id, fails AlreadyLocked
on an already locked rate, and otherwise succeeds, overwriting is_locked and
the rate value exactly when the input supplies them; in particular a
successful call supplying is_locked = true leaves the targeted rate locked. -/
theorem lockFxRate_spec (s : FxSt) (input : UpdateFxRateInput)
    (hids : (s.rates.map (fun r => r.id)).Nodup) :
    ((∀ r ∈ s.rates, r.id ≠ input.id) →
      lockFxRate s input = .error "FX rate not found") ∧
    (∀ ex ∈ s.rates, ex.id = input.id → ex.is_locked = true →
      lockFxRate s input = .error "FX rate is already locked") ∧
    (∀ ex ∈ s.rates, ex.id = input.id → ex.is_locked = false →
      lockFxRate s input = .ok { s with rates := s.rates.map (lockUpd input) } ∧
      lockUpd input ex ∈ s.rates.map (lockUpd input) ∧
      (lockUpd input ex).is_locked = input.is_locked.getD false ∧
      (lockUpd input ex).usd_to_pkr_rate =
        input.usd_to_pkr_rate.getD ex.usd_to_pkr_rate ∧
      (input.is_locked = some true → (lockUpd input ex).is_locked = true)) := by
  refine ⟨?_, ?_, ?_⟩
  · intro hnone
    have hfind : s.rates.find? (fun r => decide (r.id = input.id)) = none := by
      apply List.find?_eq_none.mpr
      intro a ha
      simpa using hnone a ha
    unfold lockFxRate
    rw [hfind]
  · intro ex hexmem hexid hexlock
    have hfind : s.rates.find? (fun r => decide (r.id = input.id)) = some ex := by
      rw [← hexid]
      exact find?_id_eq s.rates ex hids hexmem
    unfold lockFxRate
    rw [hfind]
    simp [hexlock]
  · intro ex hexmem hexid hexlock
    have hfind : s.rates.find? (fun r => decide (r.id = input.id)) = some ex := by
      rw [← hexid]
      exact find?_id_eq s.rates ex hids hexmem
    have hupd : lockUpd input ex =
        { ex with
          is_locked := input.is_locked.getD ex.is_locked,
          usd_to_pkr_rate := input.usd_to_pkr_rate.getD ex.usd_to_pkr_rate } := by
      unfold lockUpd
      rw [if_pos hexid]
    refine ⟨?_, List.mem_map.mpr ⟨ex, hexmem, rfl⟩, ?_, ?_, ?_⟩
    · unfold lockFxRate
      rw [hfind]
      simp [hexlock]
    · rw [hupd, hexlock]
    · rw [hupd]
    · intro hsome
      rw [hupd, hsome]
      rfl

/-- Witness for lockFxRate_spec: locking the unlocked 2024-01-15 rate with
is_locked = true supplied succeeds and locks it. -/
theorem lockFxRate_spec_witness :
    (fxStoreUnlocked.rates.map (fun r => r.id)).Nodup ∧
    lockFxRate fxStoreUnlocked
        { id := 1, usd_to_pkr_rate := none, is_locked := some true } =
      .ok { fxStoreUnlocked with
        rates := fxStoreUnlocked.rates.map
          (lockUpd { id := 1, usd_to_pkr_rate := none, is_locked := some true }) } :=
  ⟨by decide,
    ((lockFxRate_spec fxStoreUnlocked
        { id := 1, usd_to_pkr_rate := none, is_locked := some true }
        (by decide)).2.2 fxRateJan15 (by simp [fxStoreUnlocked]) (by rfl)
        (by rfl)).1⟩

theorem latestOnOrBefore_mem (rates : List FxRate) (d : Nat) (b : FxRate)
    (h : latestOnOrBefore rates d = some b) :
    b ∈ rates ∧ b.date ≤ d ∧ ∀ r ∈ rates, r.date ≤ d → r.date ≤ b.date := by
  unfold latestOnOrBefore at h
  cases hl : rates.filter (fun r => decide (r.date ≤ d)) with
  | nil =>
    rw [hl] at h
    cases h
  | cons x xs =>
    rw [hl] at h
    simp only [List.foldl_cons, pickLater] at h
    obtain ⟨c, h1, h2, h3, h4⟩ := pickLater_go xs x
    rw [h1] at h
    obtain rfl : c = b := Option.some.inj h
    have hbf : c ∈ rates.filter (fun r => decide (r.date ≤ d)) := by
      rw [hl]
      rcases h2 with hc | hc
      · exact hc ▸ List.mem_cons_self _ _
      · exact List.mem_cons_of_mem _ hc
    refine ⟨List.mem_of_mem_filter hbf, by simpa using (List.mem_filter.mp hbf).2, ?_⟩
    intro r hr hrle
    have hrf : r ∈ rates.filter (fun r => decide (r.date ≤ d)) := by
      simp [List.mem_filter, hr, hrle]
    rw [hl] at hrf
    rcases List.mem_cons.mp hrf with hc | hc
    · exact hc ▸ h3
    · exact h4 r hc

theorem getFxRate_eq_latest (rates : List FxRate) (d : Nat)
    (hdates : (rates.map (fun r => r.date)).Nodup) :
    getFxRate rates d = latestOnOrBefore rates d := by
  unfold getFxRate
  cases hfind : rates.find? (fun r => decide (r.date = d)) with
  | none => rfl
  | some e =>
    have hemem := List.mem_of_find?_eq_some hfind
    have hedate : e.date = d := by simpa using List.find?_some hfind
    obtain ⟨b, hbmem, heq, hble, hmax⟩ :=
      latestOnOrBefore_found rates d e hemem (le_of_eq hedate)
    have hbd : b.date = e.date :=
      le_antisymm (hedate ▸ hble) (hmax e hemem (le_of_eq hedate))
    rw [heq, List.inj_on_of_nodup_map hdates hbmem hemem hbd]

/-- C9: a USD capital movement stores the FX rate effective on or before the
transaction date — the rate getFxRate returns — and the base amount equal to
amount times that rate, failing when no such rate exists; a PKR movement
stores no rate and the identity base amount.  In particular 1000 USD dated
2024-01-15 against a 280.0000 rate for that date yields base 280000 and rate
280. -/
theorem createCapitalMovement_spec (rates : List FxRate)
    (input : CreateCapitalMovementInput)
    (hdates : (rates.map (fun r => r.date)).Nodup)
    (hpos : ∀ r ∈ rates, 0 < r.usd_to_pkr_rate) :
    (input.currency = Currency.USD →
      ((∀ r ∈ rates, ¬ r.date ≤ input.transaction_date) →
        createCapitalMovement rates input =
          .error "No FX rate available for the transaction date") ∧
      (∀ m, createCapitalMovement rates input = .ok m →
        ∃ r, getFxRate rates input.transaction_date = some r ∧
          m.fx_rate = some r.usd_to_pkr_rate ∧
          m.amount_base = input.amount * r.usd_to_pkr_rate)) ∧
    (input.currency = Currency.PKR →
      ∃ m, createCapitalMovement rates input = .ok m ∧
        m.fx_rate = none ∧ m.amount_base = input.amount) ∧
    (∃ m, createCapitalMovement [fxRate280Jan15] usd1000Jan15 = .ok m ∧
      m.amount_base = 280000 ∧ m.fx_rate = some 280) := by
  refine ⟨?_, ?_, ?_⟩
  · intro hcur
    constructor
    · intro hnone
      unfold createCapitalMovement
      rw [hcur, latestOnOrBefore_none rates input.transaction_date hnone]
    · intro m hm
      unfold createCapitalMovement at hm
      rw [hcur] at hm
      cases hlat : latestOnOrBefore rates input.transaction_date with
      | none => rw [hlat] at hm; cases hm
      | some r =>
        rw [hlat] at hm
        obtain ⟨hrmem, _, _⟩ := latestOnOrBefore_mem rates _ r hlat
        have hrpos := hpos r hrmem
        have htruthy : truthyQ r.usd_to_pkr_rate = true := by
          simp [truthyQ, ne_of_gt hrpos]
        refine ⟨r, ?_, ?_, ?_⟩
        · rw [getFxRate_eq_latest rates _ hdates, hlat]
        · rw [← Except.ok.inj hm]
          simp [htruthy]
        · rw [← Except.ok.inj hm]
  · intro hcur
    unfold createCapitalMovement
    rw [hcur]
    exact ⟨_, rfl, rfl, rfl⟩
  · refine ⟨_, rfl, ?_, ?_⟩
    · show (1000 : ℚ) * 280 = 280000
      norm_num
    · rfl

/-- Witness for createCapitalMovement_spec on the scenario store. -/
theorem createCapitalMovement_spec_witness :
    ([fxRate280Jan15].map (fun r => r.date)).Nodup ∧
    (∀ r ∈ [fxRate280Jan15], 0 < r.usd_to_pkr_rate) ∧
    ∃ m, createCapitalMovement [fxRate280Jan15] usd1000Jan15 = .ok m ∧
      m.amount_base = 280000 ∧ m.fx_rate = some 280 :=
  ⟨by decide, by decide,
    (createCapitalMovement_spec [fxRate280Jan15] usd1000Jan15
      (by decide) (by decide)).2.2⟩

/-- C10: when the partner's signed USD subtotal is nonzero and no FX rate
exists on or before the cutoff (asOfDate, or today when absent), the balance
query does not fail: it returns the USD subtotal unchanged and a PKR total
equal to the PKR subtotal alone, silently omitting the USD component. -/
theorem getPartnerCapitalBalance_noRate (movements : List CapitalMovement)
    (rates : List FxRate) (partnerId : Nat) (asOfDate : Option Nat)
    (today : Nat)
    (husd : (accumulate (movementsInScope movements partnerId asOfDate)).1 ≠ 0)
    (hnone : ∀ r ∈ rates, ¬ r.date ≤ asOfDate.getD today) :
    getPartnerCapitalBalance movements rates partnerId asOfDate today =
      { usdBalance := (accumulate (movementsInScope movements partnerId asOfDate)).1,
        pkrBalance := (accumulate (movementsInScope movements partnerId asOfDate)).2,
        totalBalancePkr :=
          (accumulate (movementsInScope movements partnerId asOfDate)).2 } := by
  unfold getPartnerCapitalBalance
  rw [latestOnOrBefore_none rates (asOfDate.getD today) hnone]
  simp [husd]

/-- Witness for getPartnerCapitalBalance_noRate: a single USD contribution and
an empty rate table. -/
theorem getPartnerCapitalBalance_noRate_witness :
    (accumulate (movementsInScope [usdMovementJan10] 1 none)).1 ≠ 0 ∧
    (∀ r ∈ ([] : List FxRate), ¬ r.date ≤ (none : Option Nat).getD 20240115) ∧
    getPartnerCapitalBalance [usdMovementJan10] [] 1 none 20240115 =
      { usdBalance := (accumulate (movementsInScope [usdMovementJan10] 1 none)).1,
        pkrBalance := (accumulate (movementsInScope [usdMovementJan10] 1 none)).2,
        totalBalancePkr :=
          (accumulate (movementsInScope [usdMovementJan10] 1 none)).2 } :=
  ⟨by simp [accumulate, movementsInScope, signedAmount, usdMovementJan10],
   by simp,
   getPartnerCapitalBalance_noRate [usdMovementJan10] [] 1 none 20240115
     (by simp [accumulate, movementsInScope, signedAmount, usdMovementJan10])
     (by simp)⟩

/-! ### Lemmas about journal validation -/

theorem validateJournal_nil :
    validateJournal [] = (false, ["Journal has no lines"]) := rfl

theorem validateJournal_errs (L : List JournalLine) (hL : L ≠ []) :
    (validateJournal L).2 = L.filterMap lineErr ++
      (if tolerance < |totalDebits L - totalCredits L| then
        [debitsMsg (totalDebits L) (totalCredits L)] else []) ++
      (if tolerance < |totalDebitsBase L - totalCreditsBase L| then
        [baseMsg (totalDebitsBase L) (totalCreditsBase L)] else []) := by
  unfold validateJournal
  rw [if_neg (by simpa [List.isEmpty_iff] using hL)]

theorem validateJournal_isValid (L : List JournalLine) :
    (validateJournal L).1 = true ↔ (validateJournal L).2 = [] := by
  unfold validateJournal
  by_cases hL : L.isEmpty
  · rw [if_pos hL]
    simp
  · rw [if_neg hL]
    simp [List.isEmpty_iff]

theorem lineErr_none (l : JournalLine) (h : lineErr l = none) :
    ¬(0 < l.debit_amount ∧ 0 < l.credit_amount) ∧
    ¬(l.debit_amount = 0 ∧ l.credit_amount = 0) := by
  unfold lineErr at h
  by_cases h1 : 0 < l.debit_amount ∧ 0 < l.credit_amount
  · rw [if_pos h1] at h
    cases h
  · rw [if_neg h1] at h
    by_cases h2 : l.debit_amount = 0 ∧ l.credit_amount = 0
    · rw [if_pos h2] at h
      cases h
    · exact ⟨h1, h2⟩

theorem linesOK_of_valid (L : List JournalLine)
    (h : (validateJournal L).1 = true) : linesOK L := by
  have hnil : (validateJournal L).2 = [] := (validateJournal_isValid L).mp h
  by_cases hL : L = []
  · subst hL
    rw [validateJournal_nil] at hnil
    cases hnil
  · rw [validateJournal_errs L hL] at hnil
    obtain ⟨hAB, hC⟩ := List.append_eq_nil.mp hnil
    obtain ⟨hA, hB⟩ := List.append_eq_nil.mp hAB
    refine ⟨hL, ?_, ?_, ?_⟩
    · intro l hl
      exact lineErr_none l (List.filterMap_eq_nil_iff.mp hA l hl)
    · by_cases hc : tolerance < |totalDebits L - totalCredits L|
      · rw [if_pos hc] at hB
        cases hB
      · exact le_of_not_lt hc
    · by_cases hc : tolerance < |totalDebitsBase L - totalCreditsBase L|
      · rw [if_pos hc] at hC
        cases hC
      · exact le_of_not_lt hc

theorem filterMap_lineErr_length (L : List JournalLine)
    (hnn : ∀ l ∈ L, 0 ≤ l.debit_amount ∧ 0 ≤ l.credit_amount) :
    (L.filterMap lineErr).length =
      L.countP (fun l =>
        decide (l.debit_amount ≠ 0 ∧ l.credit_amount ≠ 0)) +
      L.countP (fun l =>
        decide (l.debit_amount = 0 ∧ l.credit_amount = 0)) := by
  induction L with
  | nil => rfl
  | cons x xs ih =>
    have hx := hnn x (List.mem_cons_self _ _)
    have ih2 := ih (fun l hl => hnn l (List.mem_cons_of_mem _ hl))
    rw [List.countP_cons, List.countP_cons, List.filterMap_cons]
    by_cases hd : x.debit_amount = 0
    · by_cases hc : x.credit_amount = 0
      · have herr : lineErr x = some ("Line " ++ toString x.id ++
            ": Must have either debit or credit amount") := by
          unfold lineErr
          rw [if_neg (by rw [hd]; exact fun hcon => lt_irrefl 0 hcon.1),
            if_pos ⟨hd, hc⟩]
        have h1 : decide (x.debit_amount ≠ 0 ∧ x.credit_amount ≠ 0) = false := by
          simp [hd]
        have h2 : decide (x.debit_amount = 0 ∧ x.credit_amount = 0) = true := by
          simp [hd, hc]
        rw [herr, h1, h2, List.length_cons, ih2]
        simp
        omega
      · have herr : lineErr x = none := by
          unfold lineErr
          rw [if_neg (by rw [hd]; exact fun hcon => lt_irrefl 0 hcon.1),
            if_neg (fun hcon => hc hcon.2)]
        have h1 : decide (x.debit_amount ≠ 0 ∧ x.credit_amount ≠ 0) = false := by
          simp [hd]
        have h2 : decide (x.debit_amount = 0 ∧ x.credit_amount = 0) = false := by
          simp [hc]
        rw [herr, h1, h2, ih2]
        simp
    · by_cases hc : x.credit_amount = 0
      · have herr : lineErr x = none := by
          unfold lineErr
          rw [if_neg (by rw [hc]; exact fun hcon => lt_irrefl 0 hcon.2),
            if_neg (fun hcon => hd hcon.1)]
        have h1 : decide (x.debit_amount ≠ 0 ∧ x.credit_amount ≠ 0) = false := by
          simp [hc]
        have h2 : decide (x.debit_amount = 0 ∧ x.credit_amount = 0) = false := by
          simp [hd]
        rw [herr, h1, h2, ih2]
        simp
      · have hdpos : 0 < x.debit_amount := lt_of_le_of_ne hx.1 (Ne.symm hd)
        have hcpos : 0 < x.credit_amount := lt_of_le_of_ne hx.2 (Ne.symm hc)
        have herr : lineErr x = some ("Line " ++ toString x.id ++
            ": Cannot have both debit and credit amounts") := by
          unfold lineErr
          rw [if_pos ⟨hdpos, hcpos⟩]
        have h1 : decide (x.debit_amount ≠ 0 ∧ x.credit_amount ≠ 0) = true := by
          simp [hd, hc]
        have h2 : decide (x.debit_amount = 0 ∧ x.credit_amount = 0) = false := by
          simp [hd]
        rw [herr, h1, h2, List.length_cons, ih2]
        simp
        omega

/-- C2: validateJournal returns early with exactly the no-lines error on an
empty journal; otherwise the error count is the number of lines with both
sides nonzero plus the number with both sides zero plus one for each currency
whose totals differ by more than the tolerance (so all rules accumulate
without short-circuiting), each imbalance error states both totals, and
isValid holds exactly when the error list is empty. -/
theorem validateJournal_spec (L : List JournalLine)
    (hnn : ∀ l ∈ L, 0 ≤ l.debit_amount ∧ 0 ≤ l.credit_amount) :
    (L = [] → validateJournal L = (false, ["Journal has no lines"])) ∧
    (L ≠ [] → (validateJournal L).2.length =
      L.countP (fun l =>
        decide (l.debit_amount ≠ 0 ∧ l.credit_amount ≠ 0)) +
      L.countP (fun l =>
        decide (l.debit_amount = 0 ∧ l.credit_amount = 0)) +
      (if tolerance < |totalDebits L - totalCredits L| then 1 else 0) +
      (if tolerance < |totalDebitsBase L - totalCreditsBase L| then 1 else 0)) ∧
    (L ≠ [] → tolerance < |totalDebits L - totalCredits L| →
      debitsMsg (totalDebits L) (totalCredits L) ∈ (validateJournal L).2) ∧
    (L ≠ [] → tolerance < |totalDebitsBase L - totalCreditsBase L| →
      baseMsg (totalDebitsBase L) (totalCreditsBase L) ∈ (validateJournal L).2) ∧
    ((validateJournal L).1 = true ↔ (validateJournal L).2 = []) := by
  refine ⟨?_, ?_, ?_, ?_, validateJournal_isValid L⟩
  · intro hL
    subst hL
    rfl
  · intro hL
    rw [validateJournal_errs L hL]
    simp only [List.length_append]
    rw [filterMap_lineErr_length L hnn]
    by_cases hc1 : tolerance < |totalDebits L - totalCredits L| <;>
      by_cases hc2 : tolerance < |totalDebitsBase L - totalCreditsBase L| <;>
      simp [hc1, hc2]
  · intro hL hc
    rw [validateJournal_errs L hL]
    refine List.mem_append_left _ (List.mem_append_right _ ?_)
    rw [if_pos hc]
    exact List.mem_singleton_self _
  · intro hL hc
    rw [validateJournal_errs L hL]
    refine List.mem_append_right _ ?_
    rw [if_pos hc]
    exact List.mem_singleton_self _

/-- Witness for validateJournal_spec on a concrete two-line set. -/
theorem validateJournal_spec_witness :
    (∀ l ∈ [line1000, line500],
      0 ≤ l.debit_amount ∧ 0 ≤ l.credit_amount) ∧
    ((validateJournal [line1000, line500]).1 = true ↔
      (validateJournal [line1000, line500]).2 = []) :=
  ⟨by decide, (validateJournal_spec [line1000, line500] (by decide)).2.2.2.2⟩

/-! ### Step and inversion lemmas for the journal machine -/

theorem step_of_ok (s : St) (op : Op) (s2 : St)
    (h : applyOp s op = .ok s2) : step s op = s2 := by
  simp [step, h]

theorem step_of_error (s : St) (op : Op) (e : String)
    (h : applyOp s op = .error e) : step s op = s := by
  simp [step, h]

theorem map_preserves_proj {α β : Type} (f : α → α) (g : α → β) (l : List α)
    (h : ∀ x, g (f x) = g x) : (l.map f).map g = l.map g := by
  rw [List.map_map]
  exact List.map_congr_left (fun x _ => h x)

theorem createJournal_ok_inv (s : St) (input : CreateJournalInput) (s2 : St)
    (h : createJournal s input = .ok s2) :
    ∃ p ∈ s.periods, p.id = input.period_id ∧ p.status ≠ PStatus.LOCKED ∧
      input.created_by ∈ s.users ∧
      s2 = { s with journals := s.journals ++ [mkJournal s input],
                    nextJournalId := s.nextJournalId + 1 } := by
  unfold createJournal at h
  cases hfind : s.periods.find? (fun p => decide (p.id = input.period_id)) with
  | none =>
    rw [hfind] at h
    dsimp only at h
    cases h
  | some p =>
    rw [hfind] at h
    dsimp only at h
    by_cases hlock : p.status = PStatus.LOCKED
    · rw [if_pos hlock] at h
      cases h
    · rw [if_neg hlock] at h
      by_cases huser : input.created_by ∈ s.users
      · rw [if_pos huser] at h
        exact ⟨p, List.mem_of_find?_eq_some hfind,
          by simpa using List.find?_some hfind, hlock, huser,
          (Except.ok.inj h).symm⟩
      · rw [if_neg huser] at h
        cases h

theorem addJournalLine_ok_inv (s : St) (input : CreateJournalLineInput)
    (s2 : St) (h : addJournalLine s input = .ok s2) :
    ∃ j ∈ s.journals, j.id = input.journal_id ∧ j.status ≠ JStatus.POSTED ∧
      s2 = { s with lines := s.lines ++ [mkLine s input],
                    nextLineId := s.nextLineId + 1 } := by
  unfold addJournalLine at h
  cases hfind : s.journals.find? (fun j => decide (j.id = input.journal_id)) with
  | none =>
    rw [hfind] at h
    dsimp only at h
    cases h
  | some j =>
    rw [hfind] at h
    dsimp only at h
    by_cases hstat : j.status = JStatus.POSTED
    · rw [if_pos hstat] at h
      cases h
    · rw [if_neg hstat] at h
      by_cases hacc : input.account_id ∉ s.accounts
      · rw [if_pos hacc] at h
        cases h
      · rw [if_neg hacc] at h
        by_cases hpar : truthyN input.partner_id ∧
            input.partner_id.getD 0 ∉ s.partners
        · rw [if_pos hpar] at h
          cases h
        · rw [if_neg hpar] at h
          by_cases hemp : truthyN input.employee_id ∧
              input.employee_id.getD 0 ∉ s.employees
          · rw [if_pos hemp] at h
            cases h
          · rw [if_neg hemp] at h
            exact ⟨j, List.mem_of_find?_eq_some hfind,
              by simpa using List.find?_some hfind, hstat,
              (Except.ok.inj h).symm⟩

theorem deleteJournalLine_ok_inv (s : St) (lineId : Nat) (s2 : St)
    (h : deleteJournalLine s lineId = .ok s2) :
    ∃ l ∈ s.lines, l.id = lineId ∧
      ∃ j ∈ s.journals, j.id = l.journal_id ∧ j.status ≠ JStatus.POSTED ∧
        s2 = { s with
          lines := s.lines.filter (fun l2 => decide (l2.id ≠ lineId)) } := by
  unfold deleteJournalLine at h
  cases hfindl : s.lines.find? (fun l => decide (l.id = lineId)) with
  | none =>
    rw [hfindl] at h
    dsimp only at h
    cases h
  | some l =>
    rw [hfindl] at h
    dsimp only at h
    cases hfindj : s.journals.find? (fun j => decide (j.id = l.journal_id)) with
    | none =>
      rw [hfindj] at h
      dsimp only at h
      cases h
    | some j =>
      rw [hfindj] at h
      dsimp only at h
      by_cases hstat : j.status = JStatus.POSTED
      · rw [if_pos hstat] at h
        cases h
      · rw [if_neg hstat] at h
        exact ⟨l, List.mem_of_find?_eq_some hfindl,
          by simpa using List.find?_some hfindl,
          j, List.mem_of_find?_eq_some hfindj,
          by simpa using List.find?_some hfindj, hstat,
          (Except.ok.inj h).symm⟩

theorem postJournal_ok_inv (s : St) (id postedBy now : Nat) (s2 : St)
    (h : postJournal s id postedBy now = .ok s2) :
    ∃ j ∈ s.journals, j.id = id ∧ j.status ≠ JStatus.POSTED ∧
      (validateJournal (journalLines s id)).1 = true ∧ postedBy ∈ s.users ∧
      s2 = { s with
        journals := s.journals.map (postUpd id postedBy now) } := by
  unfold postJournal at h
  cases hfind : s.journals.find? (fun j => decide (j.id = id)) with
  | none =>
    rw [hfind] at h
    dsimp only at h
    cases h
  | some j =>
    rw [hfind] at h
    dsimp only at h
    by_cases hstat : j.status = JStatus.POSTED
    · rw [if_pos hstat] at h
      cases h
    · rw [if_neg hstat] at h
      cases hfindp : s.periods.find? (fun p => decide (p.id = j.period_id)) with
      | none =>
        rw [hfindp] at h
        dsimp only at h
        cases h
      | some p =>
        rw [hfindp] at h
        dsimp only at h
        by_cases hplock : p.status = PStatus.LOCKED
        · rw [if_pos hplock] at h
          cases h
        · rw [if_neg hplock] at h
          by_cases hval : (validateJournal (journalLines s id)).1 = true
          · rw [if_pos hval] at h
            by_cases huser : postedBy ∈ s.users
            · rw [if_pos huser] at h
              exact ⟨j, List.mem_of_find?_eq_some hfind,
                by simpa using List.find?_some hfind, hstat, hval, huser,
                (Except.ok.inj h).symm⟩
            · rw [if_neg huser] at h
              cases h
          · rw [if_neg hval] at h
            cases h

theorem createPeriod_ok_inv (s : St) (y m : Nat) (s2 : St)
    (h : createPeriod s y m = .ok s2) :
    (∀ p ∈ s.periods, ¬(p.year = y ∧ p.month = m)) ∧
    s2 = { s with
      periods := s.periods ++
        [{ id := s.nextPeriodId, year := y, month := m, status := .OPEN,
           locked_at := none, locked_by := none }],
      nextPeriodId := s.nextPeriodId + 1 } := by
  unfold createPeriod at h
  by_cases hdup : (s.periods.find?
      (fun p => decide (p.year = y ∧ p.month = m))).isSome
  · rw [if_pos hdup] at h
    cases h
  · rw [if_neg hdup] at h
    refine ⟨?_, (Except.ok.inj h).symm⟩
    intro p hp hpc
    exact hdup (List.find?_isSome.mpr ⟨p, hp, by simpa using hpc⟩)

theorem validatePeriodClose_true_inv (s : St) (periodId : Nat)
    (h : (validatePeriodClose s periodId).1 = true) :
    ∃ p ∈ s.periods, p.id = periodId ∧ p.status ≠ PStatus.LOCKED ∧
      draftCount s periodId = 0 := by
  unfold validatePeriodClose at h
  cases hfind : s.periods.find? (fun p => decide (p.id = periodId)) with
  | none =>
    rw [hfind] at h
    dsimp only at h
    cases h
  | some p =>
    rw [hfind] at h
    dsimp only at h
    by_cases hlock : p.status = PStatus.LOCKED
    · rw [if_pos hlock] at h
      cases h
    · rw [if_neg hlock] at h
      refine ⟨p, List.mem_of_find?_eq_some hfind,
        by simpa using List.find?_some hfind, hlock, ?_⟩
      by_cases hn : 0 < draftCount s periodId
      · rw [if_pos hn] at h
        cases h
      · omega

theorem lockPeriod_ok_inv (s : St) (id lockedBy now : Nat) (s2 : St)
    (h : lockPeriod s id lockedBy now = .ok s2) :
    (validatePeriodClose s id).1 = true ∧ lockedBy ∈ s.users ∧
      s2 = { s with
        periods := s.periods.map (lockUpdPeriod id lockedBy now) } := by
  unfold lockPeriod at h
  by_cases hval : (validatePeriodClose s id).1 = true
  · rw [if_pos hval] at h
    by_cases huser : lockedBy ∈ s.users
    · rw [if_pos huser] at h
      exact ⟨hval, huser, (Except.ok.inj h).symm⟩
    · rw [if_neg huser] at h
      cases h
  · rw [if_neg hval] at h
    cases h

theorem postUpd_id (id pb now : Nat) (j : Journal) :
    (postUpd id pb now j).id = j.id := by
  unfold postUpd
  by_cases hc : j.id = id <;> simp [hc]

theorem postUpd_skip (id pb now : Nat) (j : Journal) (h : j.id ≠ id) :
    postUpd id pb now j = j := by
  unfold postUpd
  simp [h]

theorem postUpd_hit (id pb now : Nat) (j : Journal) (h : j.id = id) :
    postUpd id pb now j =
      { j with status := .POSTED, posted_at := some now,
               posted_by := some pb } := by
  unfold postUpd
  simp [h]

theorem lockUpdPeriod_id (id lb now : Nat) (p : Period) :
    (lockUpdPeriod id lb now p).id = p.id := by
  unfold lockUpdPeriod
  by_cases hc : p.id = id <;> simp [hc]

theorem lockUpdPeriod_skip (id lb now : Nat) (p : Period) (h : p.id ≠ id) :
    lockUpdPeriod id lb now p = p := by
  unfold lockUpdPeriod
  simp [h]

theorem lockUpdPeriod_hit (id lb now : Nat) (p : Period) (h : p.id = id) :
    lockUpdPeriod id lb now p =
      { p with status := .LOCKED, locked_at := some now,
               locked_by := some lb } := by
  unfold lockUpdPeriod
  simp [h]

theorem step_inv (s : St) (h : Inv s) (op : Op) : Inv (step s op) := by
  obtain ⟨⟨hpnd, hpb, hjnd, hjb, hlnd, hlb⟩, hpost, hlocked⟩ := h
  cases happ : applyOp s op with
  | error e =>
    rw [step_of_error s op e happ]
    exact ⟨⟨hpnd, hpb, hjnd, hjb, hlnd, hlb⟩, hpost, hlocked⟩
  | ok s2 =>
    rw [step_of_ok s op s2 happ]
    cases op with
    | createPeriod y m =>
      obtain ⟨-, hs2⟩ := createPeriod_ok_inv s y m s2 happ
      subst hs2
      refine ⟨⟨?_, ?_, hjnd, hjb, hlnd, hlb⟩, hpost, ?_⟩
      · simp only [List.map_append, List.map_cons, List.map_nil]
        rw [List.nodup_append]
        refine ⟨hpnd, List.nodup_singleton _, ?_⟩
        intro x hx
        simp only [List.mem_singleton]
        obtain ⟨p, hp, hpx⟩ := List.mem_map.mp hx
        intro hcontra
        exact absurd (hpx ▸ hcontra ▸ hpb p hp) (lt_irrefl _)
      · intro p hp
        rcases List.mem_append.mp hp with hmem | hmem
        · exact Nat.lt_succ_of_lt (hpb p hmem)
        · simp only [List.mem_singleton] at hmem
          subst hmem
          exact Nat.lt_succ_self _
      · intro p hp hplock j hj hjper
        rcases List.mem_append.mp hp with hmem | hmem
        · exact hlocked p hmem hplock j hj hjper
        · simp only [List.mem_singleton] at hmem
          subst hmem
          simp at hplock
    | lockPeriod id lb now =>
      obtain ⟨hval, -, hs2⟩ := lockPeriod_ok_inv s id lb now s2 happ
      obtain ⟨p₀, hp₀mem, hp₀id, hp₀open, hdraft⟩ :=
        validatePeriodClose_true_inv s id hval
      subst hs2
      refine ⟨⟨?_, ?_, hjnd, hjb, hlnd, hlb⟩, hpost, ?_⟩
      · rw [map_preserves_proj _ _ _ (lockUpdPeriod_id id lb now)]
        exact hpnd
      · intro p hp
        obtain ⟨p₁, hp₁, hp₁x⟩ := List.mem_map.mp hp
        rw [← hp₁x, lockUpdPeriod_id]
        exact hpb p₁ hp₁
      · intro p hp hplock j hj hjper
        obtain ⟨p₁, hp₁, rfl⟩ := List.mem_map.mp hp
        rw [lockUpdPeriod_id] at hjper
        by_cases hcase : p₁.id = id
        · intro hjdraft
          have hjper2 : j.period_id = id := by rw [hjper, hcase]
          have hmemf : j ∈ s.journals.filter (fun j =>
              decide (j.period_id = id ∧ j.status = JStatus.DRAFT)) := by
            simp [List.mem_filter, hj, hjper2, hjdraft]
          have hpos : 0 < draftCount s id :=
            List.length_pos.mpr (List.ne_nil_of_mem hmemf)
          omega
        · rw [lockUpdPeriod_skip id lb now p₁ hcase] at hplock
          exact hlocked p₁ hp₁ hplock j hj hjper
    | createJournal input =>
      obtain ⟨p, hpmem, hpid, hpopen, huser, hs2⟩ :=
        createJournal_ok_inv s input s2 happ
      subst hs2
      refine ⟨⟨hpnd, hpb, ?_, ?_, hlnd, hlb⟩, ?_, ?_⟩
      · simp only [List.map_append, List.map_cons, List.map_nil]
        rw [List.nodup_append]
        refine ⟨hjnd, List.nodup_singleton _, ?_⟩
        intro x hx
        simp only [List.mem_singleton]
        obtain ⟨j, hj, hjx⟩ := List.mem_map.mp hx
        intro hcontra
        have hx2 : j.id = s.nextJournalId := by
          rw [hjx]
          exact hcontra
        exact absurd (hx2 ▸ hjb j hj) (lt_irrefl _)
      · intro j hj
        rcases List.mem_append.mp hj with hmem | hmem
        · exact Nat.lt_succ_of_lt (hjb j hmem)
        · simp only [List.mem_singleton] at hmem
          subst hmem
          exact Nat.lt_succ_self _
      · intro j hj hstat
        rcases List.mem_append.mp hj with hmem | hmem
        · exact hpost j hmem hstat
        · simp only [List.mem_singleton] at hmem
          subst hmem
          simp [mkJournal] at hstat
      · intro p' hp' hp'lock j hj hjper
        rcases List.mem_append.mp hj with hmem | hmem
        · exact hlocked p' hp' hp'lock j hmem hjper
        · simp only [List.mem_singleton] at hmem
          subst hmem
          have hids : p'.id = p.id := by
            rw [hpid]
            exact hjper.symm
          have hpp : p' = p := List.inj_on_of_nodup_map hpnd hp' hpmem hids
          exact absurd (hpp ▸ hp'lock) hpopen
    | addJournalLine input =>
      obtain ⟨j₀, hj₀mem, hj₀id, hj₀stat, hs2⟩ :=
        addJournalLine_ok_inv s input s2 happ
      subst hs2
      refine ⟨⟨hpnd, hpb, hjnd, hjb, ?_, ?_⟩, ?_, hlocked⟩
      · simp only [List.map_append, List.map_cons, List.map_nil]
        rw [List.nodup_append]
        refine ⟨hlnd, List.nodup_singleton _, ?_⟩
        intro x hx
        simp only [List.mem_singleton]
        obtain ⟨l, hl, hlx⟩ := List.mem_map.mp hx
        intro hcontra
        have hx2 : l.id = s.nextLineId := by
          rw [hlx]
          exact hcontra
        exact absurd (hx2 ▸ hlb l hl) (lt_irrefl _)
      · intro l hl
        rcases List.mem_append.mp hl with hmem | hmem
        · exact Nat.lt_succ_of_lt (hlb l hmem)
        · simp only [List.mem_singleton] at hmem
          subst hmem
          exact Nat.lt_succ_self _
      · intro j hj hstat
        have hne : ¬ ((mkLine s input).journal_id = j.id) := by
          intro hcontra
          have hj₀j : j₀ = j :=
            List.inj_on_of_nodup_map hjnd hj₀mem hj (by rw [hj₀id]; exact hcontra)
          rw [hj₀j] at hj₀stat
          exact hj₀stat hstat
        have heq : journalLines
            { s with lines := s.lines ++ [mkLine s input],
                     nextLineId := s.nextLineId + 1 } j.id =
            journalLines s j.id := by
          unfold journalLines
          dsimp only
          rw [List.filter_append]
          have hnil : [mkLine s input].filter
              (fun l => decide (l.journal_id = j.id)) = [] := by
            simp [hne]
          rw [hnil, List.append_nil]
        rw [heq]
        exact hpost j hj hstat
    | deleteJournalLine lineId =>
      obtain ⟨l₀, hl₀mem, hl₀id, j₀, hj₀mem, hj₀id, hj₀stat, hs2⟩ :=
        deleteJournalLine_ok_inv s lineId s2 happ
      subst hs2
      refine ⟨⟨hpnd, hpb, hjnd, hjb, ?_, ?_⟩, ?_, hlocked⟩
      · exact List.Nodup.sublist
          ((List.filter_sublist s.lines).map (fun l => l.id)) hlnd
      · intro l hl
        exact hlb l (List.mem_of_mem_filter hl)
      · intro j hj hstat
        have hkeep : ∀ l2 ∈ s.lines,
            decide (l2.journal_id = j.id) = true →
            decide (l2.id ≠ lineId) = true := by
          intro l2 hl2 hper
          simp only [decide_eq_true_eq] at hper ⊢
          intro hcontra
          have hl2l₀ : l2 = l₀ :=
            List.inj_on_of_nodup_map hlnd hl2 hl₀mem (by rw [hcontra, hl₀id])
          have hjid : j₀.id = j.id := by
            rw [hj₀id, ← hl2l₀]
            exact hper
          have hjj : j₀ = j := List.inj_on_of_nodup_map hjnd hj₀mem hj hjid
          rw [hjj] at hj₀stat
          exact hj₀stat hstat
        have heq : journalLines
            { s with
              lines := s.lines.filter (fun l2 => decide (l2.id ≠ lineId)) }
            j.id = journalLines s j.id := by
          unfold journalLines
          dsimp only
          rw [List.filter_filter]
          apply List.filter_congr
          intro l2 hl2
          cases hq : decide (l2.journal_id = j.id) with
          | false => simp [hq]
          | true => simp [hq, hkeep l2 hl2 hq]
        rw [heq]
        exact hpost j hj hstat
    | postJournal id pb now =>
      obtain ⟨j₀, hj₀mem, hj₀id, hj₀stat, hval, -, hs2⟩ :=
        postJournal_ok_inv s id pb now s2 happ
      subst hs2
      refine ⟨⟨hpnd, hpb, ?_, ?_, hlnd, hlb⟩, ?_, ?_⟩
      · rw [map_preserves_proj _ _ _ (postUpd_id id pb now)]
        exact hjnd
      · intro j hj
        obtain ⟨j₁, hj₁, hj₁x⟩ := List.mem_map.mp hj
        rw [← hj₁x, postUpd_id]
        exact hjb j₁ hj₁
      · intro j hj hstat
        obtain ⟨j₁, hj₁, rfl⟩ := List.mem_map.mp hj
        by_cases hcase : j₁.id = id
        · have hid2 : (postUpd id pb now j₁).id = id := by
            rw [postUpd_id]
            exact hcase
          rw [hid2]
          exact linesOK_of_valid _ hval
        · rw [postUpd_skip id pb now j₁ hcase] at hstat ⊢
          exact hpost j₁ hj₁ hstat
      · intro p hp hplock j hj hjper
        obtain ⟨j₁, hj₁, rfl⟩ := List.mem_map.mp hj
        by_cases hcase : j₁.id = id
        · rw [postUpd_hit id pb now j₁ hcase]
          intro hdraft
          simp at hdraft
        · rw [postUpd_skip id pb now j₁ hcase] at hjper ⊢
          exact hlocked p hp hplock j₁ hj₁ hjper

theorem run_inv (s : St) (h : Inv s) (ops : List Op) : Inv (run s ops) := by
  induction ops generalizing s with
  | nil => exact h
  | cons op ops ih => exact ih (step s op) (step_inv s h op)

theorem initSt_inv (users accounts partners employees : List Nat) :
    Inv (initSt users accounts partners employees) := by
  refine ⟨⟨?_, ?_, ?_, ?_, ?_, ?_⟩, ?_, ?_⟩ <;> simp [initSt, postedOK, lockedOK]

/-- C1: in every store reachable from the initial store by any sequence of
operations, every POSTED journal has at least one line, no line has both
sides positive, no line has both sides zero, and the debit and credit totals
agree within 0.01 in both the transaction and the base currency. -/
theorem posted_journals_valid (users accounts partners employees : List Nat)
    (ops : List Op) :
    ∀ j ∈ (run (initSt users accounts partners employees) ops).journals,
      j.status = JStatus.POSTED →
      linesOK (journalLines
        (run (initSt users accounts partners employees) ops) j.id) :=
  (run_inv _ (initSt_inv users accounts partners employees) ops).2.1

/-- Witness for posted_journals_valid: the scenario run posts a balanced
journal which then satisfies the invariant. -/
theorem posted_journals_valid_witness :
    postedJournal1 ∈ (run (initSt [1] [1] [] []) scenarioOps).journals ∧
    postedJournal1.status = JStatus.POSTED ∧
    linesOK (journalLines (run (initSt [1] [1] [] []) scenarioOps)
      postedJournal1.id) := by
  have hrun : (run (initSt [1] [1] [] []) scenarioOps).journals =
      [postedJournal1] := by
    with_unfolding_all rfl
  have hmem : postedJournal1 ∈ (run (initSt [1] [1] [] []) scenarioOps).journals := by
    rw [hrun]
    exact List.mem_cons_self _ _
  exact ⟨hmem, rfl,
    posted_journals_valid [1] [1] [] [] scenarioOps postedJournal1 hmem rfl⟩

/-- C6: in every reachable store no DRAFT journal references a LOCKED period;
moreover lockPeriod fails whenever the period still contains a draft journal,
and createJournal fails when the target period is locked. -/
theorem locked_periods_no_drafts (users accounts partners employees : List Nat)
    (ops : List Op) :
    (∀ p ∈ (run (initSt users accounts partners employees) ops).periods,
      p.status = PStatus.LOCKED →
      ∀ j ∈ (run (initSt users accounts partners employees) ops).journals,
        j.period_id = p.id → j.status ≠ JStatus.DRAFT) ∧
    (∀ (s : St) (pid lb now : Nat), 0 < draftCount s pid →
      ∃ e, lockPeriod s pid lb now = .error e) ∧
    (∀ (s : St) (input : CreateJournalInput) (p : Period),
      s.periods.find? (fun p2 => decide (p2.id = input.period_id)) = some p →
      p.status = PStatus.LOCKED →
      createJournal s input = .error "Cannot create journal in locked period") := by
  refine ⟨(run_inv _ (initSt_inv users accounts partners employees) ops).2.2,
    ?_, ?_⟩
  · intro s pid lb now hn
    have hval : (validatePeriodClose s pid).1 = false := by
      unfold validatePeriodClose
      cases hf : s.periods.find? (fun p => decide (p.id = pid)) with
      | none => rfl
      | some p =>
        dsimp only
        by_cases hl : p.status = PStatus.LOCKED
        · rw [if_pos hl]
        · rw [if_neg hl]
          dsimp only
          rw [if_pos hn]
          rfl
    unfold lockPeriod
    rw [hval]
    rw [if_neg (by simp)]
    exact ⟨_, rfl⟩
  · intro s input p hf hlock
    unfold createJournal
    rw [hf]
    dsimp only
    rw [if_pos hlock]

/-- Witness for locked_periods_no_drafts: creating a journal in a concrete
locked period fails with the locked-period error. -/
theorem locked_periods_no_drafts_witness :
    lockedPeriodSt.periods.find?
      (fun p2 => decide (p2.id = createInLockedInput.period_id)) =
        some period1locked ∧
    period1locked.status = PStatus.LOCKED ∧
    createJournal lockedPeriodSt createInLockedInput =
      .error "Cannot create journal in locked period" :=
  ⟨rfl, rfl,
    (locked_periods_no_drafts [] [] [] [] []).2.2 lockedPeriodSt
      createInLockedInput period1locked rfl rfl⟩

/-- C3: a failing postJournal leaves the store unchanged; on the concrete
store with debits 1000.00 against credits 500.00 the call fails with a
message containing the text (do not equal), the run leaves the store exactly
as it was, and the journal remains DRAFT with null posted_at and posted_by. -/
theorem postJournal_failure_spec :
    (∀ (s : St) (id pb now : Nat) (e : String),
      postJournal s id pb now = .error e →
      step s (Op.postJournal id pb now) = s) ∧
    (∃ e, postJournal unbalancedSt 1 1 99 = .error e ∧
      ∃ a b : String, e = a ++ "do not equal" ++ b) ∧
    run unbalancedSt [Op.postJournal 1 1 99] = unbalancedSt ∧
    (∀ j ∈ (run unbalancedSt [Op.postJournal 1 1 99]).journals,
      j.status = JStatus.DRAFT ∧ j.posted_at = none ∧ j.posted_by = none) := by
  have hpostf : postJournal unbalancedSt 1 1 99 = .error
      ("Journal validation failed: Debits (1000.00) do not equal credits (500.00), Base currency debits (1000.00) do not equal base currency credits (500.00)") := by
    with_unfolding_all rfl
  have hrun : run unbalancedSt [Op.postJournal 1 1 99] = unbalancedSt := by
    with_unfolding_all rfl
  refine ⟨?_, ⟨_, hpostf,
    "Journal validation failed: Debits (1000.00) ",
    " credits (500.00), Base currency debits (1000.00) do not equal base currency credits (500.00)",
    by rfl⟩, hrun, ?_⟩
  · intro s id pb now e he
    exact step_of_error s (Op.postJournal id pb now) e he
  · intro j hj
    rw [hrun] at hj
    have hj2 : j = journal1draft := by
      simpa [unbalancedSt] using hj
    rw [hj2]
    exact ⟨rfl, rfl, rfl⟩

/-- Witness for postJournal_failure_spec: its universal conjunct applied to
the concrete failing call. -/
theorem postJournal_failure_spec_witness :
    step unbalancedSt (Op.postJournal 1 1 99) = unbalancedSt := by
  obtain ⟨e, he, -⟩ := postJournal_failure_spec.2.1
  exact postJournal_failure_spec.1 unbalancedSt 1 1 99 e he

/-- C7 counterexample: validatePeriodClose on a locked period that still
contains one draft journal returns only the already-locked error; the
draft-count error is absent although both conditions hold, refuting the claim
that both errors are returned together. -/
theorem validatePeriodClose_shortcircuit_locked :
    period1locked.status = PStatus.LOCKED ∧
    draftCount lockedPeriodSt 1 = 1 ∧
    validatePeriodClose lockedPeriodSt 1 =
      (false, ["Period is already locked"]) ∧
    draftMsg 1 ∉ (validatePeriodClose lockedPeriodSt 1).2 := by
  refine ⟨rfl, rfl, rfl, ?_⟩
  intro hmem
  have h2 : (validatePeriodClose lockedPeriodSt 1).2 =
      ["Period is already locked"] := rfl
  rw [h2] at hmem
  simp only [List.mem_singleton] at hmem
  have hne : draftMsg 1 ≠ "Period is already locked" := by
    with_unfolding_all decide
  exact hne hmem

/-- C7 amended: a missing period short-circuits with only the not-found
error, an already locked period also short-circuits with only the
already-locked error (the draft-count check is not reached), and for an
existing unlocked period the error list holds exactly the draft-count error
when the count is positive; canClose holds iff the error list is empty. -/
theorem validatePeriodClose_spec (s : St) (pid : Nat) :
    (s.periods.find? (fun p => decide (p.id = pid)) = none →
      validatePeriodClose s pid = (false, ["Period not found"])) ∧
    (∀ p, s.periods.find? (fun p2 => decide (p2.id = pid)) = some p →
      p.status = PStatus.LOCKED →
      validatePeriodClose s pid = (false, ["Period is already locked"])) ∧
    (∀ p, s.periods.find? (fun p2 => decide (p2.id = pid)) = some p →
      p.status ≠ PStatus.LOCKED →
      validatePeriodClose s pid =
        (decide (draftCount s pid = 0),
         if 0 < draftCount s pid then [draftMsg (draftCount s pid)] else [])) ∧
    ((validatePeriodClose s pid).1 = true ↔
      (validatePeriodClose s pid).2 = []) := by
  refine ⟨?_, ?_, ?_, ?_⟩
  · intro hf
    unfold validatePeriodClose
    rw [hf]
  · intro p hf hlock
    unfold validatePeriodClose
    rw [hf]
    dsimp only
    rw [if_pos hlock]
  · intro p hf hlock
    unfold validatePeriodClose
    rw [hf]
    dsimp only
    rw [if_neg hlock]
    by_cases hn : 0 < draftCount s pid
    · rw [if_pos hn]
      have hd : decide (draftCount s pid = 0) = false := by
        simp
        omega
      rw [hd]
      rfl
    · rw [if_neg hn]
      have hd : decide (draftCount s pid = 0) = true := by
        simp
        omega
      rw [hd]
      rfl
  · unfold validatePeriodClose
    cases hf : s.periods.find? (fun p => decide (p.id = pid)) with
    | none => simp
    | some p =>
      dsimp only
      by_cases hlock : p.status = PStatus.LOCKED
      · rw [if_pos hlock]
        simp
      · rw [if_neg hlock]
        dsimp only
        by_cases hn : 0 < draftCount s pid
        · rw [if_pos hn]
          simp
        · rw [if_neg hn]
          simp

/-- Witness for validatePeriodClose_spec: an open period with one draft
journal yields exactly the draft-count error. -/
theorem validatePeriodClose_spec_witness :
    unbalancedSt.periods.find? (fun p2 => decide (p2.id = 1)) =
      some period1open ∧
    validatePeriodClose unbalancedSt 1 =
      (decide (draftCount unbalancedSt 1 = 0),
       if 0 < draftCount unbalancedSt 1
       then [draftMsg (draftCount unbalancedSt 1)] else []) :=
  ⟨rfl, (validatePeriodClose_spec unbalancedSt 1).2.2.1 period1open rfl
    (by decide)⟩

end FinOps
